import Mathlib
set_option maxRecDepth 8000
set_option maxHeartbeats 2000000
/-!
Shallow embedding of the `dkc` document-ingestion pipeline
(`src/firstAgent/src/dkc/`): utils.py, loader.py, chunker.py, cli.py,
writer.py, and the checksum helper of processors.py.

Machine integers are modelled as `Nat` with explicit `% 2^32` where the
SHA-1 algorithm wraps.  Strings are Lean `String`s; Python string
operations act on code points, exactly as `String.data : List Char` does.
-/
/-! ### 32-bit helpers (hashlib.sha1 model) -/
/-- `2^32`, the modulus of SHA-1's 32-bit arithmetic. -/
def w32 : Nat := 4294967296
/-- Bitwise operation on two naturals, one bit at a time, with explicit
fuel (32 suffices for values below `2^32`).  Used to model the 32-bit
`and`/`or`/`xor` of SHA-1 without any machine-integer type. -/
def bitOpF (f : Bool → Bool → Bool) : Nat → Nat → Nat → Nat
  | 0, _, _ => 0
  | fuel+1, a, b =>
    (if f (a % 2 = 1) (b % 2 = 1) then 1 else 0) + 2 * bitOpF f fuel (a / 2) (b / 2)
/-- 32-bit bitwise and. -/
def and32 (a b : Nat) : Nat := bitOpF (fun x y => x && y) 32 a b
/-- 32-bit bitwise or. -/
def or32 (a b : Nat) : Nat := bitOpF (fun x y => x || y) 32 a b
/-- 32-bit bitwise xor. -/
def xor32 (a b : Nat) : Nat := bitOpF (fun x y => x ≠ y) 32 a b
/-- 32-bit bitwise complement of `b` (`b < 2^32`). -/
def not32 (b : Nat) : Nat := (w32 - 1) - b % w32
/-- Left-rotation of a 32-bit value by `n` places. -/
def rotl (n x : Nat) : Nat := (x * 2 ^ n) % w32 + x % w32 / 2 ^ (32 - n)
/-! ### SHA-1 (`hashlib.sha1(...).hexdigest()`) -/
/-- Big-endian byte rendering of `x` on `n` bytes. -/
def toBE (n x : Nat) : List Nat := (List.range n).map (fun i => x / 256 ^ (n - 1 - i) % 256)
/-- SHA-1 padding: `0x80`, zeros to 56 mod 64, then the 64-bit big-endian
bit length. -/
def sha1Pad (msg : List Nat) : List Nat :=
  let l := msg.length
  let k := (64 + 55 - l % 64) % 64
  msg ++ 128 :: List.replicate k 0 ++ toBE 8 (8 * l)
/-- Split a byte list into 64-byte blocks (fuel-driven, structural). -/
def blocksF : Nat → List Nat → List (List Nat)
  | 0, _ => []
  | _, [] => []
  | fuel+1, l => l.take 64 :: blocksF fuel (l.drop 64)
/-- The sixteen 32-bit big-endian words of one 64-byte block. -/
def blockWords (b : List Nat) : List Nat :=
  (List.range 16).map (fun i =>
    b.getD (4 * i) 0 * 16777216 + b.getD (4 * i + 1) 0 * 65536 +
      b.getD (4 * i + 2) 0 * 256 + b.getD (4 * i + 3) 0)
/-- Message-schedule extension: appends `fuel` further words, each the
1-rotation of the xor of the words 3, 8, 14 and 16 places back. -/
def sha1Extend : Nat → List Nat → List Nat
  | 0, ws => ws
  | fuel+1, ws =>
    let n := ws.length
    sha1Extend fuel (ws ++ [rotl 1 (xor32 (xor32 (ws.getD (n - 3) 0) (ws.getD (n - 8) 0))
      (xor32 (ws.getD (n - 14) 0) (ws.getD (n - 16) 0)))])
/-- The SHA-1 round function for round `t`. -/
def sha1F (t b c d : Nat) : Nat :=
  if t < 20 then or32 (and32 b c) (and32 (not32 b) d)
  else if t < 40 then xor32 (xor32 b c) d
  else if t < 60 then or32 (or32 (and32 b c) (and32 b d)) (and32 c d)
  else xor32 (xor32 b c) d
/-- The SHA-1 round constant for round `t`. -/
def sha1K (t : Nat) : Nat :=
  if t < 20 then 0x5A827999
  else if t < 40 then 0x6ED9EBA1
  else if t < 60 then 0x8F1BBCDC
  else 0xCA62C1D6
/-- The 80 compression rounds, structural on the remaining-round count. -/
def sha1Rounds : Nat → Nat → List Nat → Nat × Nat × Nat × Nat × Nat → Nat × Nat × Nat × Nat × Nat
  | 0, _, _, st => st
  | fuel+1, t, sched, (a, b, c, d, e) =>
    let temp := (rotl 5 a + sha1F t b c d + e + sha1K t + sched.getD t 0) % w32
    sha1Rounds fuel (t + 1) sched (temp, a, rotl 30 b, c, d)
/-- Process one 64-byte block against the running 5-word state. -/
def sha1Block (h : List Nat) (b : List Nat) : List Nat :=
  let sched := sha1Extend 64 (blockWords b)
  let st := sha1Rounds 80 0 sched (h.getD 0 0, h.getD 1 0, h.getD 2 0, h.getD 3 0, h.getD 4 0)
  [(h.getD 0 0 + st.1) % w32, (h.getD 1 0 + st.2.1) % w32, (h.getD 2 0 + st.2.2.1) % w32,
    (h.getD 3 0 + st.2.2.2.1) % w32, (h.getD 4 0 + st.2.2.2.2) % w32]
/-- The five 32-bit state words of the SHA-1 digest of a byte sequence. -/
def sha1Words (msg : List Nat) : List Nat :=
  (blocksF (msg.length + 64) (sha1Pad msg)).foldl sha1Block
    [0x67452301, 0xEFCDAB89, 0x98BADCFE, 0x10325476, 0xC3D2E1F0]
/-- Lower-case hex digit for a nibble. -/
def hexDigit (n : Nat) : Char := if n < 10 then Char.ofNat (48 + n) else Char.ofNat (87 + n)
/-- The eight hex characters of one 32-bit word, most significant first. -/
def hexWord (x : Nat) : List Char := (List.range 8).map (fun i => hexDigit (x / 16 ^ (7 - i) % 16))
/-- Hex digest (as in `hexdigest()`) of a byte sequence. -/
def sha1HexBytes (msg : List Nat) : String := String.mk ((sha1Words msg).map hexWord).flatten
/-- UTF-8 encoding of one code point. -/
def utf8Char (c : Char) : List Nat :=
  let n := c.toNat
  if n < 128 then [n]
  else if n < 2048 then [192 + n / 64, 128 + n % 64]
  else if n < 65536 then [224 + n / 4096, 128 + n / 64 % 64, 128 + n % 64]
  else [240 + n / 262144, 128 + n / 4096 % 64, 128 + n / 64 % 64, 128 + n % 64]
/-- UTF-8 byte sequence of a string (`s.encode('utf-8')`). -/
def utf8 (s : String) : List Nat := (s.data.map utf8Char).flatten
/-- Embeds `utils.sha1`: SHA-1 hex digest of the UTF-8 encoding of a string. -/
def sha1 (s : String) : String := sha1HexBytes (utf8 s)
/-! ### Python string primitives

Python string operations act on code points; so do these, via
`String.data : List Char`.  Whitespace is modelled by the ASCII whitespace
characters Python's `str.split()`, `str.strip()` and `\s` agree on
(space, tab, newline, carriage return, vertical tab, form feed); the
non-ASCII Unicode whitespace code points are outside the model. -/
/-- Whitespace test used by `str.split()`, `str.strip()` and the regex `\s`. -/
def pyIsSpace (c : Char) : Bool :=
  c.toNat = 32 || c.toNat = 9 || c.toNat = 10 || c.toNat = 13 || c.toNat = 11 || c.toNat = 12
/-- ASCII upper-case letter test (the regex class `[A-Z]`). -/
def isUpperAZ (c : Char) : Bool := 65 ≤ c.toNat && c.toNat ≤ 90
/-- ASCII lower-case letter test (the regex class `[a-z]`). -/
def isLowerAZ (c : Char) : Bool := 97 ≤ c.toNat && c.toNat ≤ 122
/-- Word-character test for the regex `\b` boundaries (`[A-Za-z0-9_]`;
non-ASCII word characters are outside the model). -/
def isWordChar (c : Char) : Bool :=
  isUpperAZ c || isLowerAZ c || (48 ≤ c.toNat && c.toNat ≤ 57) || c.toNat = 95
/-- Embeds `str.strip()`: drop whitespace from both ends. -/
def pyStrip (s : String) : String :=
  String.mk (((s.data.dropWhile pyIsSpace).reverse.dropWhile pyIsSpace).reverse)
/-- Embeds `len(s)` (number of code points). -/
def pyLen (s : String) : Nat := s.data.length
/-- Embeds the slice `s[:n]` for `n ≥ 0`. -/
def pyTake (n : Nat) (s : String) : String := String.mk (s.data.take n)
/-- Accumulator-passing worker for `str.split(sep)` with a one-character
separator: emits the pending (reversed) piece at each separator and at
the end.  `"".split(sep)` gives `[""]`, as in Python. -/
def splitCharAux (sep : Char) : List Char → List Char → List String
  | [], acc => [String.mk acc.reverse]
  | c :: cs, acc =>
    if c = sep then String.mk acc.reverse :: splitCharAux sep cs []
    else splitCharAux sep cs (c :: acc)
/-- Embeds `s.split(sep)` for a one-character separator. -/
def pySplitChar (sep : Char) (s : String) : List String := splitCharAux sep s.data []
/-- Accumulator-passing worker for `str.split()` (no argument): splits on
runs of whitespace and never produces empty words. -/
def splitWsAux : List Char → List Char → List String
  | [], acc => if acc.isEmpty then [] else [String.mk acc.reverse]
  | c :: cs, acc =>
    if pyIsSpace c then
      if acc.isEmpty then splitWsAux cs [] else String.mk acc.reverse :: splitWsAux cs []
    else splitWsAux cs (c :: acc)
/-- Embeds `s.split()` (whitespace splitting, empties discarded). -/
def pySplit (s : String) : List String := splitWsAux s.data []
/-- Embeds `' '.join(words)`. -/
def joinWords : List String → String
  | [] => ""
  | [w] => w
  | w :: x :: ws => w ++ " " ++ joinWords (x :: ws)
/-- Embeds `str.splitlines()`: split at `\n`, `\r\n` or `\r`, with no
trailing empty line (the rarer Unicode line breaks are outside the model). -/
def splitlinesAux : List Char → List Char → List String
  | [], acc => if acc.isEmpty then [] else [String.mk acc.reverse]
  | '\r' :: '\n' :: cs, acc => String.mk acc.reverse :: splitlinesAux cs []
  | '\n' :: cs, acc => String.mk acc.reverse :: splitlinesAux cs []
  | '\r' :: cs, acc => String.mk acc.reverse :: splitlinesAux cs []
  | c :: cs, acc => splitlinesAux cs (c :: acc)
/-- Embeds `s.splitlines()`. -/
def pySplitlines (s : String) : List String := splitlinesAux s.data []
/-! ### Path functions (`pathlib.Path`) -/
/-- Final path component (`Path(p).name`). -/
def pyBasename (p : String) : List Char := (p.data.reverse.takeWhile (fun c => c ≠ '/')).reverse
/-- Extension of a path component, with the dot (`Path(p).suffix`): the
part after the last dot, unless there is no dot, the dot is the first
character, or the dot is the last character. -/
def pySuffix (b : List Char) : List Char :=
  let rev := b.reverse
  let ext := rev.takeWhile (fun c => c ≠ '.')
  if rev.contains '.' && !ext.isEmpty && ext.length + 1 ≠ b.length then '.' :: ext.reverse
  else []
/-- Embeds `Path(p).stem`: the final component without its suffix. -/
def pyStem (p : String) : String :=
  let b := pyBasename p
  String.mk (b.take (b.length - (pySuffix b).length))
/-- Embeds `Path(p).suffix.lower()` on the full path. -/
def pyLowerExt (p : String) : String := String.mk ((pySuffix (pyBasename p)).map Char.toLower)
/-- Stack-based normalization of path components: drops empty and `.`
components, `..` pops the previous component. -/
def canonComps : List String → List String → List String
  | [], acc => acc.reverse
  | c :: cs, acc =>
    if c = "" || c = "." then canonComps cs acc
    else if c = ".." then canonComps cs acc.tail
    else canonComps cs (c :: acc)
/-- Join path components with `/`. -/
def joinComps : List String → String
  | [] => ""
  | [c] => c
  | c :: cs => c ++ "/" ++ joinComps cs
/-- Embeds `utils.canon`, i.e. `str(Path(path).resolve())`: the absolute,
normalized form of a path.  `resolve()`'s filesystem effects (symlink
resolution, and prefixing the process working directory onto relative
paths) are outside this pure model, which normalizes the path lexically
and roots it at `/`; every path used in a concrete statement below is
already absolute and symlink-free. -/
def canon (path : String) : String := "/" ++ joinComps (canonComps (pySplitChar '/' path) [])
/-- Dedup helper for `list(set(xs))`: keeps the first occurrence of each
element.  (Python's set iteration order is an unspecified implementation
detail; no claim depends on the order of the deduplicated lists.) -/
def dedupAux : List String → List String → List String
  | [], _ => []
  | x :: xs, seen => if seen.contains x then dedupAux xs seen else x :: dedupAux xs (x :: seen)
/-- Embeds `list(set(xs))` up to the unspecified set order. -/
def pyDedup (l : List String) : List String := dedupAux l []
/-! ### Regex extraction heuristics (cli.build_knowledge_card)

`re.findall` for the two fixed patterns of the source, modelled directly:
leftmost, non-overlapping, greedy matching with word boundaries. -/
/-- Maximal word-character runs of a text, in order.  A run of `\w`
characters delimited by non-word characters (or the text's ends). -/
def wordRunsAux : List Char → List Char → List (List Char)
  | [], acc => if acc.isEmpty then [] else [acc.reverse]
  | c :: cs, acc =>
    if isWordChar c then wordRunsAux cs (c :: acc)
    else if acc.isEmpty then wordRunsAux cs [] else acc.reverse :: wordRunsAux cs []
/-- Embeds `re.findall(r'\b[A-Z]{2,}\b', text)`: a match is a maximal
word-character run consisting solely of upper-case letters, of length at
least 2 (a boundary can only sit at the edges of a word run, so the
pattern matches exactly those runs). -/
def findAcronyms (text : String) : List String :=
  ((wordRunsAux text.data []).filter (fun r => 2 ≤ r.length && r.all isUpperAZ)).map String.mk
/-- One unit `[A-Z][a-z]+` of the entity pattern: an upper-case letter
followed by a maximal nonempty run of lower-case letters.  Returns the
matched characters and the rest. -/
def matchUnit : List Char → Option (List Char × List Char)
  | [] => none
  | c :: cs =>
    if isUpperAZ c then
      let lows := cs.takeWhile isLowerAZ
      if lows.isEmpty then none else some (c :: lows, cs.dropWhile isLowerAZ)
    else none
/-- Does a word boundary `\b` hold between a just-matched word character
and the front of `rest`? -/
def boundaryAfter : List Char → Bool
  | [] => true
  | c :: _ => !isWordChar c
/-- Greedy matching of `(?:\s+[A-Z][a-z]+)*\b` after an already-matched
unit `acc`: extend with a whitespace run plus a further unit whenever the
extended match can still end at a word boundary, otherwise end at `acc`
(the regex engine's backtracking over the starred group). -/
def matchChain : Nat → List Char → List Char → Option (List Char × List Char)
  | 0, _, _ => none
  | fuel+1, acc, rest =>
    let ws := rest.takeWhile pyIsSpace
    let rest1 := rest.dropWhile pyIsSpace
    (if ws.isEmpty then none
     else match matchUnit rest1 with
       | none => none
       | some (u, r2) => matchChain fuel (acc ++ ws ++ u) r2).orElse
      (fun _ => if boundaryAfter rest then some (acc, rest) else none)
/-- Scanner for `re.findall(r'\b[A-Z][a-z]+(?:\s+[A-Z][a-z]+)*\b', text)`:
walks the text and, at every position preceded by a non-word character
where a unit matches, takes the greedy match and resumes after it. -/
def findEntitiesAux : Nat → Bool → List Char → List String
  | 0, _, _ => []
  | _, _, [] => []
  | fuel+1, prevWord, c :: cs =>
    if !prevWord && isUpperAZ c then
      match matchUnit (c :: cs) with
      | some (u, r) =>
        match matchChain (fuel + 1) u r with
        | some (m, rest) => String.mk m :: findEntitiesAux fuel true rest
        | none => findEntitiesAux fuel (isWordChar c) cs
      | none => findEntitiesAux fuel (isWordChar c) cs
    else findEntitiesAux fuel (isWordChar c) cs
/-- Embeds `re.findall(r'\b[A-Z][a-z]+(?:\s+[A-Z][a-z]+)*\b', text)`. -/
def findEntities (text : String) : List String :=
  findEntitiesAux (text.data.length + 1) false text.data
/-! ### Data model (schema.py, loader.py)

`schema.py` declares plain Pydantic records with no validators or length
constraints (its docstring notes the 5-fact bound is "not enforced as a
hard constraint"), so constructing a card or chunk never fails and the
records embed as plain structures.  A loaded document is the dict built
by loader.py (`path`, `kind`, `text`, `pages`, `lines`, `bytes`). -/
/-- Citation record (schema.py). -/
structure Citation where
  doc_id : String
  source_path : String
  text_excerpt : String
  page : Option Nat
  line : Option Nat
deriving DecidableEq
/-- KnowledgeCard record (schema.py). -/
structure KnowledgeCard where
  id : String
  title : String
  date : Option String
  source_path : String
  facts : List String
  acronyms : List String
  entities : List String
  citations : List Citation
deriving DecidableEq
/-- Chunk record (schema.py); the cli pipeline never sets `page`,
`line_start` or `line_end`. -/
structure Chunk where
  id : String
  doc_id : String
  ordinal : Nat
  text : String
  source_path : String
  page : Option Nat
  line_start : Option Nat
  line_end : Option Nat
deriving DecidableEq
/-- Document dict produced by loader.py. -/
structure Doc where
  path : String
  kind : String
  text : String
  pages : Option (List String)
  lines : Option (List String)
  bytes : Nat
deriving DecidableEq
/-! ### Loader (loader.py)

File I/O is modelled by a per-file state describing how the underlying
bytes behave under each reader: a text file is missing, undecodable
(`open(...).read()` raises and the blanket `except` fires) or decodes to
a string; a pdf file is missing, fails to parse as a whole, or parses
into pages, where a page whose `extract_text()` raises is `none`.
`size` is the file's `stat().st_size`. -/
/-- Behaviour of a path under `read_txt`. -/
inductive TxtFile
  | missing
  | undecodable (size : Nat)
  | decodes (content : String) (size : Nat)
deriving DecidableEq
/-- Behaviour of a path under `read_pdf`. -/
inductive PdfFile
  | missing
  | unparseable (size : Nat)
  | parsed (pages : List (Option String)) (size : Nat)
deriving DecidableEq
/-- Embeds `loader.read_txt`: total — every failure is caught and
degraded to an empty structure. -/
def read_txt (path : String) (f : TxtFile) : Doc :=
  match f with
  | .missing => ⟨path, "txt", "", none, some [], 0⟩
  | .undecodable size => ⟨path, "txt", "", none, some [], size⟩
  | .decodes content size => ⟨path, "txt", content, none, some (pySplitlines content), size⟩
/-- Concatenation of page texts with a newline after each page, as
`read_pdf` accumulates `full_text`. -/
def pdfFullText (pages : List String) : String :=
  pages.foldl (fun acc p => acc ++ p ++ "\n") ""
/-- Embeds `loader.read_pdf`: total — a failing page degrades to an empty
page, a failing document to an empty structure. -/
def read_pdf (path : String) (f : PdfFile) : Doc :=
  match f with
  | .missing => ⟨path, "pdf", "", some [], none, 0⟩
  | .unparseable size => ⟨path, "pdf", "", some [], none, size⟩
  | .parsed ps size =>
    let pages := ps.map (fun p => p.getD "")
    ⟨path, "pdf", pyStrip (pdfFullText pages), some pages, none, size⟩
/-- A filesystem entry for the folder model: the path's behaviour under
the reader its extension selects.  (An entry whose state kind does not
match its extension is outside the model and is skipped, like an
unsupported extension.) -/
inductive FsFile
  | txt (f : TxtFile)
  | pdf (f : PdfFile)
  | other
deriving DecidableEq
/-- Read one directory entry as `load_folder`'s loop does: dispatch on
the lower-cased extension (`.pdf` to `read_pdf`; `.txt`/`.md` to
`read_txt`), silently skipping unsupported files. -/
def readEntry : String × FsFile → Option Doc
  | (path, .txt f) =>
    if pyLowerExt path = ".txt" || pyLowerExt path = ".md" then some (read_txt path f) else none
  | (path, .pdf f) => if pyLowerExt path = ".pdf" then some (read_pdf path f) else none
  | (_, .other) => none
/-- Lexicographic comparison of code-point lists (Python's `str` order). -/
def charListLe : List Char → List Char → Bool
  | [], _ => true
  | _ :: _, [] => false
  | a :: as, b :: bs =>
    if a.toNat < b.toNat then true
    else if b.toNat < a.toNat then false
    else charListLe as bs
/-- Python's `<=` on strings: lexicographic on code points. -/
def pyStrLe (a b : String) : Bool := charListLe a.data b.data
/-- Insertion step for the final `documents.sort(key=lambda x: x["path"])`. -/
def insertByPath (d : Doc) : List Doc → List Doc
  | [] => [d]
  | x :: xs => if pyStrLe d.path x.path then d :: x :: xs else x :: insertByPath d xs
/-- Stable sort of documents by path (Python's `list.sort` with that key;
directory entries have pairwise distinct paths, so stability questions do
not arise). -/
def sortByPath (l : List Doc) : List Doc := l.foldr insertByPath []
/-- Embeds `loader.load_folder` over a one-directory folder model: read
every supported entry, then sort the documents by path.  (`os.walk`'s
recursion into subdirectories is flattened into the entry list.) -/
def load_folder (entries : List (String × FsFile)) : List Doc :=
  sortByPath (entries.filterMap readEntry)
/-! ### Card building (cli.build_knowledge_card) -/
/-- Embeds `cli.build_knowledge_card`.  The id hashes the canonical path
together with `doc['bytes']` (the byte length); the sentence list strips
and drops empty pieces of the period-split text; facts keep the long
sentences among the first five; the excerpt truncates text over 200
characters and appends `"..."`. -/
def build_knowledge_card (doc : Doc) : KnowledgeCard :=
  let doc_id := sha1 (canon doc.path ++ ":" ++ toString doc.bytes)
  let text := doc.text
  let title := pyStem doc.path
  let sentences := ((pySplitChar '.' text).map pyStrip).filter (fun s => s ≠ "")
  let facts := (sentences.take 5).filter (fun s => 20 < pyLen s)
  let acronyms := pyDedup (findAcronyms text)
  let entities := pyDedup (findEntities text)
  let citation : Citation :=
    { doc_id := doc_id, source_path := doc.path,
      text_excerpt := if 200 < pyLen text then pyTake 200 text ++ "..." else text,
      page := none, line := none }
  { id := doc_id, title := title, date := none, source_path := doc.path, facts := facts,
    acronyms := acronyms, entities := entities, citations := [citation] }
/-! ### Chunking (chunker.chunk_doc)

The source's `while start < len(words)` loop is embedded with explicit
fuel: `chunkLoop ... fuel start ordinal = some l` means the loop exits
having produced the chunks `l` from state `(start, ordinal)` within
`fuel` iterations, and `none` means it is still running — so a result of
`none` for every fuel is non-termination of the source loop.  `size` and
`overlap` are modelled as naturals (the CLI's defaults are 800 and 120;
negative values, which Python's slicing would reinterpret from the end of
the list, are outside the model). -/
/-- The chunk record built for the window `[start, min (start+size) n)`
(chunker.py lines 49–66). -/
def mkChunk (docId srcPath : String) (size : Nat) (words : List String)
    (start ordinal : Nat) : Chunk :=
  let e := min (start + size) words.length
  { id := sha1 (docId ++ ":" ++ toString ordinal), doc_id := docId, ordinal := ordinal,
    text := joinWords ((words.drop start).take (e - start)), source_path := srcPath,
    page := none, line_start := none, line_end := none }
/-- The sliding-window loop of `chunk_doc`: emit the current window's
chunk; stop if the window reached the end (`end = min (start+size) len`),
otherwise restart at `end − overlap` with the next ordinal. -/
def chunkLoop (docId srcPath : String) (size overlap : Nat) (words : List String) :
    Nat → Nat → Nat → Option (List Chunk)
  | 0, _, _ => none
  | fuel+1, start, ordinal =>
    if start < words.length then
      if words.length ≤ min (start + size) words.length then
        some [mkChunk docId srcPath size words start ordinal]
      else
        match chunkLoop docId srcPath size overlap words fuel
            (min (start + size) words.length - overlap) (ordinal + 1) with
        | none => none
        | some rest => some (mkChunk docId srcPath size words start ordinal :: rest)
    else some []
/-- Embeds `chunker.chunk_doc`: no chunks for wordless text, one chunk
when the words fit in one window, otherwise the sliding-window loop
(with fuel `words.length + 1`, enough for every terminating execution of
the source loop — see `chunkLoop_total`). -/
def chunk_doc (doc : Doc) (docId : String) (size overlap : Nat) : Option (List Chunk) :=
  if (pySplit doc.text).length = 0 then some []
  else if (pySplit doc.text).length ≤ size then
    some [{ id := sha1 (docId ++ ":1"), doc_id := docId, ordinal := 1,
            text := joinWords (pySplit doc.text), source_path := doc.path,
            page := none, line_start := none, line_end := none }]
  else chunkLoop docId doc.path size overlap (pySplit doc.text) ((pySplit doc.text).length + 1) 0 1
/-! ### Orchestration and manifest (cli.build, writer.write_manifest)

In `cli.build`, the per-document `except` records a skipped file only
when `build_knowledge_card` or `chunk_doc` raises; both are total
functions of the loaded document dict (no dict key is missing and
schema.py validates nothing), so the branch is unreachable and
`skipped_files` stays empty.  A `chunk_doc` call that never returns
(`overlap ≥ size` on a long document) makes the whole run hang, modelled
by the run returning `none`. -/
/-- The manifest dict written by `writer.write_manifest`. -/
structure WriterManifest where
  total_documents : Nat
  total_cards : Nat
  total_chunks : Nat
  skipped_files : List String
deriving DecidableEq
/-- Embeds `writer.write_manifest`'s dict construction. -/
def write_manifest (docs : List Doc) (cards : List KnowledgeCard) (chunks : List Chunk)
    (skipped : List String) : WriterManifest :=
  ⟨docs.length, cards.length, chunks.length, skipped⟩
/-- The accumulated outputs of one completed `build` run. -/
structure RunResult where
  docs : List Doc
  cards : List KnowledgeCard
  chunks : List Chunk
  skipped : List String
  manifest : WriterManifest
deriving DecidableEq
/-- The document loop of `cli.build`: build each card, chunk each
document, accumulate; `none` if any `chunk_doc` call never returns. -/
def buildLoop (size overlap : Nat) : List Doc → Option (List KnowledgeCard × List Chunk)
  | [] => some ([], [])
  | d :: ds =>
    match chunk_doc d (build_knowledge_card d).id size overlap with
    | none => none
    | some cs =>
      match buildLoop size overlap ds with
      | none => none
      | some q => some (build_knowledge_card d :: q.1, cs ++ q.2)
/-- Embeds the `build` command of cli.py over the folder model: load the
documents, run the loop, write the manifest. -/
def build (entries : List (String × FsFile)) (size overlap : Nat) : Option RunResult :=
  let docs := load_folder entries
  (buildLoop size overlap docs).map (fun p =>
    ⟨docs, p.1, p.2, [], write_manifest docs p.1 p.2 []⟩)
/-- Embeds `processors.calculate_checksum`: the SHA-1 hex digest of a
file's bytes — the content checksum the repository computes (the spec's
`checksum`). -/
def calculate_checksum (content : List Nat) : String := sha1HexBytes content
/-- Modelled from the spec (section 4.1, also `processors.generate_doc_id`):
`documentId(canonicalPath, checksum)` is the digest of
`"{canonicalPath}:{checksum}"`. -/
def documentId_spec (canonicalPath checksum : String) : String :=
  sha1 (canonicalPath ++ ":" ++ checksum)

/-! ### Claim-side definitions and concrete inputs

The definitions the claim statements quantify or evaluate over: the
spec-side fact extraction order for C2, the words/overlap views of a
chunk, and the concrete documents and folders the counterexamples and
witnesses are evaluated at. -/

/-- Hex-character test (lower-case digest alphabet `0-9a-f`). -/
def isHexChar (c : Char) : Bool :=
  (48 ≤ c.toNat && c.toNat ≤ 57) || (97 ≤ c.toNat && c.toNat ≤ 102)
/-- Modelled from the spec (section 4.3, facts): split on periods, trim,
discard sentences of length at most 20, keep the first five — the
filter-then-truncate order the claim asserts. -/
def extract_facts_claim (text : String) : List String :=
  (((pySplitChar '.' text).map pyStrip).filter (fun s => 20 < pyLen s)).take 5
/-- A document whose text is `"hello"` and whose byte length is 5. -/
def docC1 : Doc := ⟨"/in/a.txt", "txt", "hello", none, some ["hello"], 5⟩
/-- A document with one short first sentence followed by five long ones. -/
def docC2 : Doc :=
  ⟨"/in/c2.txt", "txt",
    "ab. Sentence two is long enough. Sentence three is long. Sentence four is long too. " ++
      "Sentence five is long yes. Sentence six is also long.",
    none, some [], 138⟩
/-- A document whose text has exactly 201 characters. -/
def docC6 : Doc := ⟨"/in/c6.txt", "txt", String.mk (List.replicate 201 'a'), none, some [], 201⟩
/-- A document whose text is a single space: non-empty, but wordless. -/
def docC5 : Doc := ⟨"/in/w.txt", "txt", " ", none, some [" "], 1⟩
/-- A four-word document for the C5 witness. -/
def docC5w : Doc := ⟨"/in/w5.txt", "txt", "alpha beta gamma delta", none, some [], 22⟩
/-- The two-word document on which `overlap = size` makes the loop spin. -/
def docC4 : Doc := ⟨"/in/ab.txt", "txt", "a b", none, some ["a b"], 3⟩
/-- The whitespace-split words of a chunk's text. -/
def chunkWords (c : Chunk) : List String := pySplit c.text
/-- Two consecutive chunks overlap by exactly `overlap` words: the first
`overlap` words of the later chunk are the last `overlap` words of the
earlier one. -/
def OverlapRel (overlap : Nat) (c c' : Chunk) : Prop :=
  (chunkWords c').take overlap = (chunkWords c).drop ((chunkWords c).length - overlap)
/-- A five-word document for the C10 witness. -/
def docC10w : Doc := ⟨"/in/w10.txt", "txt", "a b c d e", none, some [], 9⟩
/-- A text-kind document for the C7 witness. -/
def docC7a : Doc := ⟨"/in/a.txt", "txt", "Hello world", none, some ["Hello world"], 11⟩
/-- The same path, text and byte length seen as a pdf-kind document. -/
def docC7b : Doc := ⟨"/in/a.txt", "pdf", "Hello world", some ["Hello world"], none, 11⟩
/-- A one-good-file folder for the C8 witness. -/
def entriesC8 : List (String × FsFile) := [("/in/a.txt", FsFile.txt (.decodes "Hi." 3))]
/-- The C3 folder: one well-formed document and one undecodable file. -/
def entriesC3 : List (String × FsFile) :=
  [("/in/a.txt", FsFile.txt (.decodes "Good content here." 18)),
    ("/in/b.txt", FsFile.txt (.undecodable 7))]

/-! ### Sanity checks of the embedding -/

/-- Sanity: the SHA-1 model reproduces the standard test vector for "abc". -/
theorem sha1_abc : sha1 "abc" = "a9993e364706816aba3e25717850c26c9cd0d89d" := by decide
/-- Sanity: the SHA-1 model reproduces the digest of the empty string. -/
theorem sha1_empty : sha1 "" = "da39a3ee5e6b4b0d3255bfef95601890afd80709" := by decide
/-- Sanity checks for the path model. -/
theorem path_model_checks :
    pyStem "/in/a.txt" = "a" ∧ pyLowerExt "/x/B.TXT" = ".txt" ∧
      canon "/a/b/../c//d/./e.txt" = "/a/c/d/e.txt" ∧ pySplit " a  bc " = ["a", "bc"] ∧
      pySplitChar '.' "ab.c." = ["ab", "c", ""] ∧ pyStrip "  ab c\n" = "ab c" := by decide
/-- Sanity: the two extraction heuristics on the spec's worked example. -/
theorem extraction_example_checks :
    findAcronyms "Machine Learning (ML) is a subset of AI. It uses algorithms to learn patterns."
        = ["ML", "AI"] ∧
      findEntities "Machine Learning (ML) is a subset of AI. It uses algorithms to learn patterns."
        = ["Machine Learning", "It"] := by decide

/-! ### Unfolding and helper lemmas -/

/-- Unfolding equation of `chunkLoop` at positive fuel. -/
theorem chunkLoop_succ (docId srcPath : String) (size overlap : Nat) (words : List String)
    (fuel start ordinal : Nat) :
    chunkLoop docId srcPath size overlap words (fuel + 1) start ordinal =
      if start < words.length then
        if words.length ≤ min (start + size) words.length then
          some [mkChunk docId srcPath size words start ordinal]
        else
          match chunkLoop docId srcPath size overlap words fuel
              (min (start + size) words.length - overlap) (ordinal + 1) with
          | none => none
          | some rest => some (mkChunk docId srcPath size words start ordinal :: rest)
      else some [] := rfl

/-! ### Digest shape lemmas -/
theorem foldl_sha1Block_length : ∀ (bs : List (List Nat)) (h : List Nat), h.length = 5 →
    (bs.foldl sha1Block h).length = 5
  | [], _, hh => hh
  | _ :: bs, h, _ => foldl_sha1Block_length bs (sha1Block h _) rfl
theorem sha1Words_length (msg : List Nat) : (sha1Words msg).length = 5 :=
  foldl_sha1Block_length _ _ rfl
theorem hexWord_length (x : Nat) : (hexWord x).length = 8 := by simp [hexWord]
theorem flatten_hexWords_length : ∀ (l : List Nat), ((l.map hexWord).flatten).length = 8 * l.length
  | [] => rfl
  | x :: l => by
    simp only [List.map_cons, List.flatten_cons, List.length_append, hexWord_length,
      flatten_hexWords_length l, List.length_cons]
    ring
/-- Every digest of the SHA-1 model has exactly 40 characters. -/
theorem sha1HexBytes_length (msg : List Nat) : (sha1HexBytes msg).data.length = 40 := by
  show ((sha1Words msg).map hexWord).flatten.length = 40
  rw [flatten_hexWords_length, sha1Words_length]
theorem hexDigit_isHex : ∀ n < 16, isHexChar (hexDigit n) = true := by decide
theorem hexWord_isHex (x : Nat) : ∀ c ∈ hexWord x, isHexChar c = true := by
  intro c hc
  simp only [hexWord, List.mem_map, List.mem_range] at hc
  obtain ⟨i, _, rfl⟩ := hc
  exact hexDigit_isHex _ (Nat.mod_lt _ (by norm_num))
/-- Every digest of the SHA-1 model is a hex string. -/
theorem sha1HexBytes_isHex (msg : List Nat) : (sha1HexBytes msg).data.all isHexChar = true := by
  rw [List.all_eq_true]
  intro c hc
  rw [show (sha1HexBytes msg).data = ((sha1Words msg).map hexWord).flatten from rfl,
    List.mem_flatten] at hc
  obtain ⟨l, hl, hcl⟩ := hc
  rw [List.mem_map] at hl
  obtain ⟨x, _, rfl⟩ := hl
  exact hexWord_isHex x c hcl
/-! ### Claims C1, C2, C6 (card construction) -/
/-- C1, counterexample: the id the code computes for `docC1` is not the
digest of `"{canonicalPath}:{checksum}"` for the content checksum of the
document's bytes — the code hashes the byte *length* (here `5`), not a
checksum. -/
theorem C1_counterexample :
    (build_knowledge_card docC1).id
      ≠ documentId_spec (canon docC1.path) (calculate_checksum (utf8 docC1.text)) := by decide
/-- C1, amended: the document id is the SHA-1 hex digest (40 hex
characters) of `"{canonicalPath}:{byteLength}"`, where `byteLength` is
the document's size in bytes; as a Lean function of the document it is
deterministic, total and pure. -/
theorem C1_amended (doc : Doc) :
    (build_knowledge_card doc).id = sha1 (canon doc.path ++ ":" ++ toString doc.bytes) ∧
      (build_knowledge_card doc).id.data.length = 40 ∧
      (build_knowledge_card doc).id.data.all isHexChar = true :=
  ⟨rfl, sha1HexBytes_length _, sha1HexBytes_isHex _⟩
/-- C2, counterexample: the facts of `docC2` are not the first at-most-5
elements of the length-filtered sentence list — the code truncates to
five sentences before filtering, so the short first sentence costs a
slot and only 4 facts survive where the claim demands 5. -/
theorem C2_counterexample :
    (build_knowledge_card docC2).facts ≠ extract_facts_claim docC2.text := by decide
/-- C2, amended: facts are obtained by splitting on periods, trimming,
discarding empty pieces, truncating to the first five sentences and then
discarding those of length at most 20 (truncate before filter); hence
there are at most 5 facts, each longer than 20 characters, in original
order. -/
theorem C2_amended (doc : Doc) :
    (build_knowledge_card doc).facts
        = ((((pySplitChar '.' doc.text).map pyStrip).filter (fun s => s ≠ "")).take 5).filter
            (fun s => 20 < pyLen s) ∧
      (build_knowledge_card doc).facts.length ≤ 5 ∧
      (build_knowledge_card doc).facts.all (fun f => 20 < pyLen f) = true := by
  refine ⟨rfl, ?_, ?_⟩
  · exact le_trans (List.length_filter_le _ _) (by simp)
  · rw [List.all_eq_true]
    intro f hf
    exact (List.mem_filter.mp hf).2
/-- C6, counterexample: for the 201-character document the single
citation's excerpt has 203 characters — the truncation marker is
appended after the first 200 characters, so the excerpt exceeds the
claimed 200-character bound. -/
theorem C6_counterexample :
    (build_knowledge_card docC6).citations.map (fun c => pyLen c.text_excerpt) = [203] ∧
      ¬(203 ≤ 200) := by decide
theorem pyLen_append (s t : String) : pyLen (s ++ t) = pyLen s + pyLen t := by
  simp [pyLen, String.data_append]
theorem pyLen_pyTake (n : Nat) (s : String) : pyLen (pyTake n s) = min n (pyLen s) := by
  simp [pyLen, pyTake]
/-- C6, amended: the excerpt equals the text when the text has at most
200 characters; for longer text it is the first 200 characters with the
marker `"..."` appended, giving exactly 203 characters — so the bound
satisfied in every case is 203, not 200. -/
theorem C6_amended (doc : Doc) :
    (build_knowledge_card doc).citations.map (fun c => c.text_excerpt)
        = [if 200 < pyLen doc.text then pyTake 200 doc.text ++ "..." else doc.text] ∧
      (200 < pyLen doc.text →
        (build_knowledge_card doc).citations.map (fun c => pyLen c.text_excerpt) = [203]) ∧
      (pyLen doc.text ≤ 200 →
        (build_knowledge_card doc).citations.map (fun c => c.text_excerpt) = [doc.text]) ∧
      ∀ c ∈ (build_knowledge_card doc).citations, pyLen c.text_excerpt ≤ 203 := by
  refine ⟨rfl, ?_, ?_, ?_⟩
  · intro h
    show [pyLen (if 200 < pyLen doc.text then pyTake 200 doc.text ++ "..." else doc.text)] = [203]
    rw [if_pos h]
    have h3 : pyLen "..." = 3 := rfl
    rw [show pyLen (pyTake 200 doc.text ++ "...") = 203 by rw [pyLen_append, pyLen_pyTake, h3]; omega]
  · intro h
    show [if 200 < pyLen doc.text then pyTake 200 doc.text ++ "..." else doc.text] = [doc.text]
    rw [if_neg (by omega)]
  · intro c hc
    have hc2 := List.mem_singleton.mp hc
    subst hc2
    show pyLen (if 200 < pyLen doc.text then pyTake 200 doc.text ++ "..." else doc.text) ≤ 203
    by_cases h : 200 < pyLen doc.text
    · rw [if_pos h, pyLen_append, pyLen_pyTake]
      have h3 : pyLen "..." = 3 := rfl
      omega
    · rw [if_neg h]
      omega
/-- C6, witness: the amended theorem at the 201-character document. -/
theorem C6_witness :
    (build_knowledge_card docC6).citations.map (fun c => pyLen c.text_excerpt) = [203] :=
  (C6_amended docC6).2.1 (by decide)
/-! ### Chunk-loop lemmas (for C4, C5, C10) -/
/-- With `overlap < size`, the loop finishes from any state within
`words.length − start` further iterations (each iteration either stops
or advances `start` by `size − overlap ≥ 1`). -/
theorem chunkLoop_total (docId src : String) (size overlap : Nat) (words : List String)
    (hov : overlap < size) :
    ∀ fuel start ordinal, words.length - start < fuel →
      ∃ l, chunkLoop docId src size overlap words fuel start ordinal = some l := by
  intro fuel
  induction fuel with
  | zero => intro start ordinal h; omega
  | succ f ih =>
    intro start ordinal h
    by_cases hs : start < words.length
    · by_cases he : words.length ≤ min (start + size) words.length
      · exact ⟨_, by rw [chunkLoop_succ, if_pos hs, if_pos he]⟩
      · have hlt : start + size < words.length := by omega
        obtain ⟨l, hl⟩ := ih (min (start + size) words.length - overlap) (ordinal + 1) (by omega)
        exact ⟨_, by rw [chunkLoop_succ, if_pos hs, if_neg he, hl]⟩
    · exact ⟨[], by rw [chunkLoop_succ, if_neg hs]⟩
/-- A successful loop started inside the word list begins with the chunk
of the current window. -/
theorem chunkLoop_shape (docId src : String) (size overlap : Nat) (words : List String)
    (fuel start ordinal : Nat) (l : List Chunk)
    (h : chunkLoop docId src size overlap words fuel start ordinal = some l)
    (hs : start < words.length) :
    ∃ rest, l = mkChunk docId src size words start ordinal :: rest := by
  cases fuel with
  | zero => exact Option.noConfusion h
  | succ f =>
    rw [chunkLoop_succ, if_pos hs] at h
    by_cases he : words.length ≤ min (start + size) words.length
    · rw [if_pos he] at h
      exact ⟨[], (Option.some.inj h).symm⟩
    · rw [if_neg he] at h
      cases hrec : chunkLoop docId src size overlap words f
          (min (start + size) words.length - overlap) (ordinal + 1) with
      | none => rw [hrec] at h; exact absurd h (by simp)
      | some rest => rw [hrec] at h; exact ⟨rest, (Option.some.inj h).symm⟩
/-- The ordinals of the chunks a successful loop returns are consecutive,
starting from the loop's incoming ordinal. -/
theorem chunkLoop_ordinals (docId src : String) (size overlap : Nat) (words : List String) :
    ∀ fuel start ordinal l, chunkLoop docId src size overlap words fuel start ordinal = some l →
      l.map (fun c => c.ordinal) = List.range' ordinal l.length := by
  intro fuel
  induction fuel with
  | zero =>
    intro start ordinal l h
    exact Option.noConfusion h
  | succ f ih =>
    intro start ordinal l h
    rw [chunkLoop_succ] at h
    by_cases hs : start < words.length
    · rw [if_pos hs] at h
      by_cases he : words.length ≤ min (start + size) words.length
      · rw [if_pos he] at h
        obtain rfl : [mkChunk docId src size words start ordinal] = l := Option.some.inj h
        rfl
      · rw [if_neg he] at h
        cases hrec : chunkLoop docId src size overlap words f
            (min (start + size) words.length - overlap) (ordinal + 1) with
        | none => rw [hrec] at h; exact absurd h (by simp)
        | some rest =>
          rw [hrec] at h
          obtain rfl : mkChunk docId src size words start ordinal :: rest = l := Option.some.inj h
          have hr := ih _ _ _ hrec
          simp only [List.map_cons, List.length_cons, hr]
          rfl
    · rw [if_neg hs] at h
      obtain rfl : ([] : List Chunk) = l := Option.some.inj h
      rfl
/-! ### Claim C5 (chunk count and ordinals) -/
/-- C5, counterexample: the single-space document has non-empty text but
`chunk_doc` returns no chunks — `text.split()` produces no words, so the
claim's "non-empty text gives at least one chunk" fails. -/
theorem C5_counterexample :
    chunk_doc docC5 "d" 800 120 = some [] ∧ docC5.text ≠ "" := by
  exact ⟨rfl, by decide⟩
/-- C5, amended: for every document whose text contains at least one
whitespace-delimited word (and any accepted configuration
`overlap < size`), `chunk_doc` returns at least one chunk and the chunk
ordinals form exactly the contiguous sequence `1..N`; for wordless text
(empty or whitespace-only) it returns no chunks. -/
theorem C5_amended (doc : Doc) (docId : String) (size overlap : Nat) (hov : overlap < size) :
    (pySplit doc.text = [] → chunk_doc doc docId size overlap = some []) ∧
      (pySplit doc.text ≠ [] → ∃ l, chunk_doc doc docId size overlap = some l ∧ l ≠ [] ∧
        l.map (fun c => c.ordinal) = List.range' 1 l.length) := by
  constructor
  · intro h
    rw [chunk_doc, if_pos (by rw [h]; rfl)]
  · intro h
    have hw : 0 < (pySplit doc.text).length := List.length_pos.mpr h
    by_cases hle : (pySplit doc.text).length ≤ size
    · refine ⟨[{ id := sha1 (docId ++ ":1"), doc_id := docId, ordinal := 1,
                 text := joinWords (pySplit doc.text), source_path := doc.path,
                 page := none, line_start := none, line_end := none }],
        by rw [chunk_doc, if_neg (by omega), if_pos hle], by simp, rfl⟩
    · obtain ⟨l, hl⟩ := chunkLoop_total docId doc.path size overlap (pySplit doc.text) hov
        ((pySplit doc.text).length + 1) 0 1 (by omega)
      refine ⟨l, ?_, ?_, chunkLoop_ordinals docId doc.path size overlap (pySplit doc.text)
        _ _ _ _ hl⟩
      · rw [chunk_doc, if_neg (by omega), if_neg hle]
        exact hl
      · obtain ⟨rest, rfl⟩ := chunkLoop_shape docId doc.path size overlap (pySplit doc.text)
          _ _ _ _ hl hw
        simp
/-- C5, witness: the amended theorem at a concrete four-word document
with `size = 3`, `overlap = 1`. -/
theorem C5_witness :
    ∃ l, chunk_doc docC5w "d" 3 1 = some l ∧ l ≠ [] ∧
      l.map (fun c => c.ordinal) = List.range' 1 l.length :=
  (C5_amended docC5w "d" 3 1 (by decide)).2 (by decide)
/-! ### Claim C4 (termination of chunk production) -/
/-- C4: with `size = 1`, `overlap = 1` and a two-word document the
window-advance rule keeps `start` at `end − overlap = 0`, so the source
loop never reaches the end: the fueled loop returns `none` for every
fuel, `chunk_doc` cannot return, and the whole `build` run hangs — no
configuration validation rejects or clamps `overlap ≥ size` anywhere in
the pipeline (the CLI passes `--chunk`/`--overlap` straight through). -/
theorem C4_no_validation_nontermination :
    (∀ (docId srcPath : String) (fuel ordinal : Nat),
        chunkLoop docId srcPath 1 1 ["a", "b"] fuel 0 ordinal = none) ∧
      chunk_doc docC4 "d" 1 1 = none ∧
      build [("/in/ab.txt", FsFile.txt (.decodes "a b" 3))] 1 1 = none := by
  have key : ∀ (docId srcPath : String) (fuel ordinal : Nat),
      chunkLoop docId srcPath 1 1 ["a", "b"] fuel 0 ordinal = none := by
    intro docId srcPath fuel
    induction fuel with
    | zero => intro ordinal; rfl
    | succ f ih =>
      intro ordinal
      rw [chunkLoop_succ, if_pos (by decide), if_neg (by decide),
        show min (0 + 1) (List.length ["a", "b"]) - 1 = 0 from rfl, ih (ordinal + 1)]
  refine ⟨key, ?_, ?_⟩
  · rw [show chunk_doc docC4 "d" 1 1
      = chunkLoop "d" "/in/ab.txt" 1 1 ["a", "b"] 3 0 1 from rfl]
    exact key "d" "/in/ab.txt" 3 1
  · have hload : load_folder [("/in/ab.txt", FsFile.txt (.decodes "a b" 3))] = [docC4] := rfl
    have hcd : chunk_doc docC4 (build_knowledge_card docC4).id 1 1 = none := by
      rw [show chunk_doc docC4 (build_knowledge_card docC4).id 1 1
        = chunkLoop (build_knowledge_card docC4).id "/in/ab.txt" 1 1 ["a", "b"] 3 0 1 from rfl]
      exact key _ _ 3 1
    have hb : buildLoop 1 1 [docC4] = none := by
      rw [show buildLoop 1 1 [docC4]
        = (match chunk_doc docC4 (build_knowledge_card docC4).id 1 1 with
           | none => none
           | some cs =>
             match buildLoop 1 1 [] with
             | none => none
             | some p => some (build_knowledge_card docC4 :: p.1, cs ++ p.2)) from rfl, hcd]
    rw [show build [("/in/ab.txt", FsFile.txt (.decodes "a b" 3))] 1 1
      = (buildLoop 1 1 (load_folder [("/in/ab.txt", FsFile.txt (.decodes "a b" 3))])).map
          (fun p => ⟨load_folder [("/in/ab.txt", FsFile.txt (.decodes "a b" 3))], p.1, p.2, [],
            write_manifest (load_folder [("/in/ab.txt", FsFile.txt (.decodes "a b" 3))])
              p.1 p.2 []⟩) from rfl, hload, hb]
    rfl
/-! ### Words of a chunk: split/join round trip (for C10) -/
/-- Unfolding of `splitWsAux` on the empty list. -/
theorem splitWsAux_nil (acc : List Char) :
    splitWsAux [] acc = if acc.isEmpty then [] else [String.mk acc.reverse] := rfl
/-- Unfolding of `splitWsAux` on a cons. -/
theorem splitWsAux_cons (c : Char) (cs acc : List Char) :
    splitWsAux (c :: cs) acc =
      if pyIsSpace c then
        if acc.isEmpty then splitWsAux cs [] else String.mk acc.reverse :: splitWsAux cs []
      else splitWsAux cs (c :: acc) := rfl
/-- Every word `str.split()` produces is non-empty and whitespace-free. -/
theorem splitWsAux_good : ∀ (l acc : List Char), (∀ c ∈ acc, pyIsSpace c = false) →
    ∀ w ∈ splitWsAux l acc, w.data ≠ [] ∧ ∀ c ∈ w.data, pyIsSpace c = false := by
  intro l
  induction l with
  | nil =>
    intro acc hacc w hw
    rw [splitWsAux_nil] at hw
    by_cases h : acc.isEmpty
    · rw [if_pos h] at hw
      exact absurd hw (List.not_mem_nil w)
    · rw [if_neg h] at hw
      rw [List.mem_singleton] at hw
      subst hw
      refine ⟨?_, ?_⟩
      · show acc.reverse ≠ []
        simp only [ne_eq, List.reverse_eq_nil_iff]
        intro hh
        exact h (by rw [hh]; rfl)
      · intro c hc
        exact hacc c (List.mem_reverse.mp hc)
  | cons c cs ih =>
    intro acc hacc w hw
    rw [splitWsAux_cons] at hw
    by_cases hsp : pyIsSpace c
    · rw [if_pos hsp] at hw
      by_cases h : acc.isEmpty
      · rw [if_pos h] at hw
        exact ih [] (by intro x hx; exact absurd hx (List.not_mem_nil x)) w hw
      · rw [if_neg h] at hw
        rcases List.mem_cons.mp hw with h1 | h1
        · subst h1
          refine ⟨?_, ?_⟩
          · show acc.reverse ≠ []
            simp only [ne_eq, List.reverse_eq_nil_iff]
            intro hh
            exact h (by rw [hh]; rfl)
          · intro x hx
            exact hacc x (List.mem_reverse.mp hx)
        · exact ih [] (by intro x hx; exact absurd hx (List.not_mem_nil x)) w h1
    · rw [if_neg hsp] at hw
      refine ih (c :: acc) ?_ w hw
      intro x hx
      rcases List.mem_cons.mp hx with rfl | hx2
      · simpa using hsp
      · exact hacc x hx2
/-- Every word of `pySplit s` is non-empty and whitespace-free. -/
theorem pySplit_good (s : String) :
    ∀ w ∈ pySplit s, w.data ≠ [] ∧ ∀ c ∈ w.data, pyIsSpace c = false :=
  splitWsAux_good s.data [] (by intro x hx; exact absurd hx (List.not_mem_nil x))
/-- On whitespace-free input `splitWsAux` yields the single pending word. -/
theorem splitWsAux_no_space : ∀ (l acc : List Char), (∀ c ∈ l, pyIsSpace c = false) →
    splitWsAux l acc =
      if (acc.reverse ++ l).isEmpty then [] else [String.mk (acc.reverse ++ l)] := by
  intro l
  induction l with
  | nil =>
    intro acc _
    rw [splitWsAux_nil]
    by_cases h : acc.isEmpty
    · rw [if_pos h, if_pos (by simp [List.isEmpty_iff] at h ⊢; exact h)]
    · rw [if_neg h, if_neg (by simp [List.isEmpty_iff] at h ⊢; exact h)]
      simp
  | cons c cs ih =>
    intro acc h
    have hc : pyIsSpace c = false := h c (List.mem_cons_self c cs)
    rw [splitWsAux_cons, if_neg (by simp [hc])]
    rw [ih (c :: acc) (fun x hx => h x (List.mem_cons_of_mem c hx))]
    have he : (c :: acc).reverse ++ cs = acc.reverse ++ c :: cs := by simp
    rw [he]
/-- `splitWsAux` on `word ++ ' ' :: rest` emits the word (with the
pending prefix) and recurses on `rest`. -/
theorem splitWsAux_append_space : ∀ (l acc r : List Char),
    (∀ c ∈ l, pyIsSpace c = false) → acc.reverse ++ l ≠ [] →
    splitWsAux (l ++ ' ' :: r) acc = String.mk (acc.reverse ++ l) :: splitWsAux r [] := by
  intro l
  induction l with
  | nil =>
    intro acc r _ hne
    have hacc : acc ≠ [] := by simpa using hne
    rw [show ([] : List Char) ++ ' ' :: r = ' ' :: r from rfl]
    rw [splitWsAux_cons, if_pos (by decide), if_neg (by simp [List.isEmpty_iff, hacc])]
    simp
  | cons c cs ih =>
    intro acc r h _
    have hc : pyIsSpace c = false := h c (List.mem_cons_self c cs)
    rw [show (c :: cs) ++ ' ' :: r = c :: (cs ++ ' ' :: r) from rfl]
    rw [splitWsAux_cons, if_neg (by simp [hc])]
    rw [ih (c :: acc) r (fun x hx => h x (List.mem_cons_of_mem c hx)) (by simp)]
    simp
/-- Splitting the space-join of good words recovers the words:
`' '.join(ws).split() == ws` whenever every word is non-empty and
whitespace-free. -/
theorem pySplit_joinWords : ∀ (ws : List String),
    (∀ w ∈ ws, w.data ≠ [] ∧ ∀ c ∈ w.data, pyIsSpace c = false) →
    pySplit (joinWords ws) = ws := by
  intro ws
  induction ws with
  | nil => intro _; rfl
  | cons w ws2 ih =>
    intro h
    have hw := h w (List.mem_cons_self w ws2)
    cases ws2 with
    | nil =>
      show splitWsAux w.data [] = [w]
      rw [splitWsAux_no_space w.data [] hw.2]
      rw [if_neg (by simp [List.isEmpty_iff, hw.1])]
      simp
    | cons x ws3 =>
      show splitWsAux (w ++ " " ++ joinWords (x :: ws3)).data [] = w :: x :: ws3
      have hdata : (w ++ " " ++ joinWords (x :: ws3)).data
          = w.data ++ ' ' :: (joinWords (x :: ws3)).data := by
        rw [String.data_append, String.data_append]
        simp
      rw [hdata]
      rw [splitWsAux_append_space w.data [] (joinWords (x :: ws3)).data hw.2
        (by simp [hw.1])]
      have ih2 : splitWsAux (joinWords (x :: ws3)).data [] = x :: ws3 :=
        ih (fun u hu => h u (List.mem_cons_of_mem w hu))
      rw [ih2]
      simp
/-- The words of the chunk built for a window are exactly the window's
slice of the document's word list. -/
theorem mkChunk_words (docId src : String) (size : Nat) (words : List String)
    (start ordinal : Nat)
    (hg : ∀ w ∈ words, w.data ≠ [] ∧ ∀ c ∈ w.data, pyIsSpace c = false) :
    chunkWords (mkChunk docId src size words start ordinal)
      = (words.drop start).take (min (start + size) words.length - start) :=
  pySplit_joinWords _ (fun w hw => hg w (List.drop_subset start words (List.take_subset _ _ hw)))
/-! ### Claim C10 (overlap relation between consecutive chunks) -/
/-- Loop invariant for C10: started inside the word list with
`overlap < size`, every produced chunk has between 1 and `size` words
and consecutive chunks satisfy the overlap relation. -/
theorem chunkLoop_chain (docId src : String) (size overlap : Nat) (words : List String)
    (hg : ∀ w ∈ words, w.data ≠ [] ∧ ∀ c ∈ w.data, pyIsSpace c = false)
    (hov : overlap < size) :
    ∀ fuel start ordinal l,
      chunkLoop docId src size overlap words fuel start ordinal = some l →
      start < words.length →
      (∀ c ∈ l, chunkWords c ≠ [] ∧ (chunkWords c).length ≤ size) ∧
        List.Chain' (OverlapRel overlap) l := by
  intro fuel
  induction fuel with
  | zero => intro start ord l h _; exact Option.noConfusion h
  | succ f ih =>
    intro start ord l h hs
    rw [chunkLoop_succ, if_pos hs] at h
    by_cases he : words.length ≤ min (start + size) words.length
    · rw [if_pos he] at h
      obtain rfl : [mkChunk docId src size words start ord] = l := Option.some.inj h
      have hmin : min (start + size) words.length = words.length := by omega
      refine ⟨?_, List.chain'_singleton _⟩
      intro c hc
      rw [List.mem_singleton] at hc
      subst hc
      rw [mkChunk_words docId src size words start ord hg, hmin]
      have hlen : ((words.drop start).take (words.length - start)).length
          = words.length - start := by
        rw [List.length_take, List.length_drop]
        omega
      refine ⟨?_, ?_⟩
      · intro hnil
        rw [hnil] at hlen
        simp at hlen
        omega
      · rw [List.length_take, List.length_drop]
        omega
    · rw [if_neg he] at h
      have hlt : start + size < words.length := by omega
      have hmin : min (start + size) words.length = start + size := by omega
      cases hrec : chunkLoop docId src size overlap words f
          (min (start + size) words.length - overlap) (ord + 1) with
      | none => rw [hrec] at h; exact Option.noConfusion h
      | some rest =>
        rw [hrec] at h
        obtain rfl : mkChunk docId src size words start ord :: rest = l := Option.some.inj h
        have hstart' : min (start + size) words.length - overlap < words.length := by omega
        have hrecres := ih _ _ _ hrec hstart'
        obtain ⟨rest2, hrest⟩ :=
          chunkLoop_shape docId src size overlap words f _ _ _ hrec hstart'
        have hcw : chunkWords (mkChunk docId src size words start ord)
            = (words.drop start).take size := by
          rw [mkChunk_words docId src size words start ord hg, hmin,
            show start + size - start = size from by omega]
        have hcwlen : (chunkWords (mkChunk docId src size words start ord)).length = size := by
          rw [hcw, List.length_take, List.length_drop]
          omega
        refine ⟨?_, ?_⟩
        · intro c hc
          rcases List.mem_cons.mp hc with rfl | hc2
          · refine ⟨?_, by rw [hcwlen]⟩
            intro hnil
            rw [hnil] at hcwlen
            simp at hcwlen
            omega
          · exact hrecres.1 c hc2
        · rw [hrest]
          rw [hrest] at hrecres
          refine List.chain'_cons.mpr ⟨?_, hrecres.2⟩
          show (chunkWords (mkChunk docId src size words
              (min (start + size) words.length - overlap) (ord + 1))).take overlap
            = (chunkWords (mkChunk docId src size words start ord)).drop
                ((chunkWords (mkChunk docId src size words start ord)).length - overlap)
          rw [hcwlen, hcw, mkChunk_words docId src size words
            (min (start + size) words.length - overlap) (ord + 1) hg, hmin]
          rw [List.take_take, List.drop_take, List.drop_drop]
          rw [show min overlap (min (start + size - overlap + size) words.length
              - (start + size - overlap)) = overlap from by omega]
          rw [show size - (size - overlap) = overlap from by omega]
          rw [show start + (size - overlap) = start + size - overlap from by omega]
/-- C10: for a document with more than `size` words and `0 < overlap < size`,
`chunk_doc` succeeds with a non-empty chunk list in which every chunk's
text is non-empty with at most `size` words, and each chunk shares
exactly its first `overlap` words with the last `overlap` words of its
predecessor. -/
theorem C10_overlap (doc : Doc) (docId : String) (size overlap : Nat)
    (hlen : size < (pySplit doc.text).length) (_hop : 0 < overlap) (hov : overlap < size) :
    ∃ l, chunk_doc doc docId size overlap = some l ∧ l ≠ [] ∧
      (∀ c ∈ l, c.text ≠ "" ∧ chunkWords c ≠ [] ∧ (chunkWords c).length ≤ size) ∧
      List.Chain' (OverlapRel overlap) l := by
  have hg := pySplit_good doc.text
  have hw : 0 < (pySplit doc.text).length := by omega
  obtain ⟨l, hl⟩ := chunkLoop_total docId doc.path size overlap (pySplit doc.text) hov
    ((pySplit doc.text).length + 1) 0 1 (by omega)
  have hch := chunkLoop_chain docId doc.path size overlap (pySplit doc.text) hg hov
    _ _ _ _ hl hw
  obtain ⟨rest, rfl⟩ := chunkLoop_shape docId doc.path size overlap (pySplit doc.text)
    _ _ _ _ hl hw
  refine ⟨_, by rw [chunk_doc, if_neg (by omega), if_neg (by omega)]; exact hl, by simp,
    ?_, hch.2⟩
  intro c hc
  have h2 := hch.1 c hc
  refine ⟨?_, h2.1, h2.2⟩
  intro htext
  exact h2.1 (show chunkWords c = [] from by show pySplit c.text = []; rw [htext]; rfl)
/-- C10, witness: the theorem at the five-word document with `size = 2`,
`overlap = 1`. -/
theorem C10_witness :
    ∃ l, chunk_doc docC10w "d" 2 1 = some l ∧ l ≠ [] ∧
      (∀ c ∈ l, c.text ≠ "" ∧ chunkWords c ≠ [] ∧ (chunkWords c).length ≤ 2) ∧
      List.Chain' (OverlapRel 1) l :=
  C10_overlap docC10w "d" 2 1 (by decide) (by decide) (by decide)
/-! ### Claim C9 (loader totality and degradation) -/
/-- C9: the readers are total functions of the file state — a missing,
undecodable or unparseable file yields a record with empty text and
empty pages/lines rather than an error, a page whose extraction fails
degrades to an empty page, and an undecodable file still flows through
the pipeline as one (empty) card with nothing recorded as skipped. -/
theorem C9_loader_total :
    ∀ (path : String) (size n chunkSize overlap : Nat) (ps : List (Option String)),
      read_txt path .missing = ⟨path, "txt", "", none, some [], 0⟩ ∧
      read_txt path (.undecodable size) = ⟨path, "txt", "", none, some [], size⟩ ∧
      read_pdf path .missing = ⟨path, "pdf", "", some [], none, 0⟩ ∧
      read_pdf path (.unparseable size) = ⟨path, "pdf", "", some [], none, size⟩ ∧
      (read_pdf path (.parsed ps size)).pages = some (ps.map (fun p => p.getD "")) ∧
      (build [("/in/x.txt", FsFile.txt (.undecodable n))] chunkSize overlap).map
          (fun r => (r.cards.length, r.skipped)) = some (1, []) := by
  intro path size n chunkSize overlap ps
  exact ⟨rfl, rfl, rfl, rfl, rfl, rfl⟩
/-! ### Claim C7 (determinism of ids and checksums) -/
/-- C7: the id-producing functions are pure functions of the input path
and bytes — two documents agreeing on path, text and byte length (even
if they differ in every other field) receive the same document id and
the same chunks (hence the same chunk ids), and equal file bytes yield
equal manifest checksums; hence two runs over identical input agree on
all ids and checksums. -/
theorem C7_determinism (d1 d2 : Doc) (size overlap : Nat) (b1 b2 : List Nat)
    (hpath : d1.path = d2.path) (htext : d1.text = d2.text) (hbytes : d1.bytes = d2.bytes)
    (hb : b1 = b2) :
    (build_knowledge_card d1).id = (build_knowledge_card d2).id ∧
      chunk_doc d1 (build_knowledge_card d1).id size overlap
        = chunk_doc d2 (build_knowledge_card d2).id size overlap ∧
      calculate_checksum b1 = calculate_checksum b2 := by
  have hid : (build_knowledge_card d1).id = (build_knowledge_card d2).id := by
    show sha1 (canon d1.path ++ ":" ++ toString d1.bytes)
        = sha1 (canon d2.path ++ ":" ++ toString d2.bytes)
    rw [hpath, hbytes]
  refine ⟨hid, ?_, by rw [hb]⟩
  simp only [chunk_doc]
  rw [hpath, htext, hid]
/-- C7, witness: two documents differing only in kind/pages/lines get
identical ids, chunks and checksums. -/
theorem C7_witness :
    (build_knowledge_card docC7a).id = (build_knowledge_card docC7b).id ∧
      chunk_doc docC7a (build_knowledge_card docC7a).id 800 120
        = chunk_doc docC7b (build_knowledge_card docC7b).id 800 120 ∧
      calculate_checksum (utf8 "Hello world") = calculate_checksum (utf8 "Hello world") :=
  C7_determinism docC7a docC7b 800 120 (utf8 "Hello world") (utf8 "Hello world")
    rfl rfl rfl rfl
/-! ### Claims C8 and C3 (orchestration and manifest) -/
/-- A completed document loop emits exactly one card per document. -/
theorem buildLoop_cards_length : ∀ (size overlap : Nat) (docs : List Doc)
    (p : List KnowledgeCard × List Chunk),
    buildLoop size overlap docs = some p → p.1.length = docs.length := by
  intro size overlap docs
  induction docs with
  | nil =>
    intro p h
    obtain rfl : (([], []) : List KnowledgeCard × List Chunk) = p := Option.some.inj h
    rfl
  | cons d ds ih =>
    intro p h
    rw [show buildLoop size overlap (d :: ds)
      = (match chunk_doc d (build_knowledge_card d).id size overlap with
         | none => none
         | some cs =>
           match buildLoop size overlap ds with
           | none => none
           | some q => some (build_knowledge_card d :: q.1, cs ++ q.2)) from rfl] at h
    cases hc : chunk_doc d (build_knowledge_card d).id size overlap with
    | none => rw [hc] at h; exact Option.noConfusion h
    | some cs =>
      rw [hc] at h
      cases hb : buildLoop size overlap ds with
      | none => rw [hb] at h; exact Option.noConfusion h
      | some q =>
        rw [hb] at h
        obtain rfl : (build_knowledge_card d :: q.1, cs ++ q.2) = p := Option.some.inj h
        show q.1.length + 1 = ds.length + 1
        rw [ih q hb]
/-- C8: for every completed run, the manifest's `total_chunks` equals the
number of emitted chunk records, and `total_cards ≤ total_documents`. -/
theorem C8_manifest (entries : List (String × FsFile)) (size overlap : Nat)
    (h : (build entries size overlap).isSome = true) :
    ((build entries size overlap).get h).manifest.total_chunks
        = ((build entries size overlap).get h).chunks.length ∧
      ((build entries size overlap).get h).manifest.total_cards
        ≤ ((build entries size overlap).get h).manifest.total_documents := by
  cases hb : buildLoop size overlap (load_folder entries) with
  | none =>
    rw [show build entries size overlap
      = (buildLoop size overlap (load_folder entries)).map
          (fun p => ⟨load_folder entries, p.1, p.2, [],
            write_manifest (load_folder entries) p.1 p.2 []⟩) from rfl, hb] at h
    simp at h
  | some p =>
    have hbuild : build entries size overlap = some ⟨load_folder entries, p.1, p.2, [],
        write_manifest (load_folder entries) p.1 p.2 []⟩ := by
      rw [show build entries size overlap
        = (buildLoop size overlap (load_folder entries)).map
            (fun p => ⟨load_folder entries, p.1, p.2, [],
              write_manifest (load_folder entries) p.1 p.2 []⟩) from rfl, hb]
      rfl
    simp only [hbuild, Option.get_some]
    refine ⟨rfl, ?_⟩
    show p.1.length ≤ (load_folder entries).length
    exact le_of_eq (buildLoop_cards_length size overlap _ p hb)
/-- C8, witness: the manifest consistency of the completed run over a
concrete one-document folder. -/
theorem C8_witness :
    ((build entriesC8 800 120).get (by decide)).manifest.total_chunks
        = ((build entriesC8 800 120).get (by decide)).chunks.length ∧
      ((build entriesC8 800 120).get (by decide)).manifest.total_cards
        ≤ ((build entriesC8 800 120).get (by decide)).manifest.total_documents :=
  C8_manifest entriesC8 800 120 (by decide)
/-- C3, counterexample: over a folder with one well-formed document and
one undecodable file the run does succeed, but it emits two cards (not
one) and `skippedFiles` is empty (the bad file is not listed): the
loader degrades the decode failure to an empty document, so the
pipeline's skip branch never fires. -/
theorem C3_counterexample :
    (build entriesC3 800 120).map (fun r => (r.cards.length, r.manifest.skipped_files))
        = some (2, []) ∧
      ¬((2 : Nat) = 1) ∧ "/in/b.txt" ∉ ([] : List String) := by
  exact ⟨by decide, by decide, by decide⟩
/-- C3, amended: every run that completes emits exactly one card per
loaded document — including an empty card for each undecodable file —
and records nothing in `skippedFiles`. -/
theorem C3_amended (entries : List (String × FsFile)) (size overlap : Nat)
    (h : (build entries size overlap).isSome = true) :
    ((build entries size overlap).get h).cards.length
        = ((build entries size overlap).get h).docs.length ∧
      ((build entries size overlap).get h).manifest.skipped_files = [] ∧
      ((build entries size overlap).get h).skipped = [] := by
  cases hb : buildLoop size overlap (load_folder entries) with
  | none =>
    rw [show build entries size overlap
      = (buildLoop size overlap (load_folder entries)).map
          (fun p => ⟨load_folder entries, p.1, p.2, [],
            write_manifest (load_folder entries) p.1 p.2 []⟩) from rfl, hb] at h
    simp at h
  | some p =>
    have hbuild : build entries size overlap = some ⟨load_folder entries, p.1, p.2, [],
        write_manifest (load_folder entries) p.1 p.2 []⟩ := by
      rw [show build entries size overlap
        = (buildLoop size overlap (load_folder entries)).map
            (fun p => ⟨load_folder entries, p.1, p.2, [],
              write_manifest (load_folder entries) p.1 p.2 []⟩) from rfl, hb]
      rfl
    simp only [hbuild, Option.get_some]
    refine ⟨buildLoop_cards_length size overlap _ p hb, ?_, ?_⟩ <;> trivial
/-- C3, witness: the amended theorem at the C3 folder itself. -/
theorem C3_witness :
    ((build entriesC3 800 120).get (by decide)).cards.length
        = ((build entriesC3 800 120).get (by decide)).docs.length ∧
      ((build entriesC3 800 120).get (by decide)).manifest.skipped_files = [] ∧
      ((build entriesC3 800 120).get (by decide)).skipped = [] :=
  C3_amended entriesC3 800 120 (by decide)
